import Mathlib

/-!
# Verification of `NativeDateHelper.js`

Shallow embedding of `src/NativeDateHelper.js` (the `NativeDate` class and the
`nativeDateHelper` factory) together with a model of the JavaScript platform
pieces the class uses: numbers that may be `NaN`, `Date` objects (at calendar-day
granularity, with local time taken to be UTC and time-of-day ignored — the
program never inspects time-of-day), the `Date` field setters with their
overflow-carry normalization, and parsing of ISO `YYYY-MM-DD` strings.

Machine reals never occur with fractional values in this program: every number
flowing through the class is an integer or `NaN`, so a JS number is modelled as
`Option Int` (`none` = `NaN`).
-/

/-! ## JS numbers (integral or NaN) -/

/-- A JavaScript number as used by this program: an integer, or `NaN` (`none`). -/
abbrev JSNum := Option Int

/-- JS `===` on numbers; any comparison with `NaN` is false. -/
def jsEq : JSNum → JSNum → Bool
  | some a, some b => decide (a = b)
  | _, _ => false

/-- JS `>` on numbers; any comparison with `NaN` is false. -/
def jsGt : JSNum → JSNum → Bool
  | some a, some b => decide (b < a)
  | _, _ => false

/-- JS `<` on numbers; any comparison with `NaN` is false. -/
def jsLt : JSNum → JSNum → Bool
  | some a, some b => decide (a < b)
  | _, _ => false

/-- JS `>=` on numbers; any comparison with `NaN` is false. -/
def jsGe : JSNum → JSNum → Bool
  | some a, some b => decide (b ≤ a)
  | _, _ => false

/-- JS `<=` on numbers; any comparison with `NaN` is false. -/
def jsLe : JSNum → JSNum → Bool
  | some a, some b => decide (a ≤ b)
  | _, _ => false

/-- Addition of an integer to a JS number (`NaN` absorbs). -/
def jsAdd (a : JSNum) (n : Int) : JSNum :=
  match a with
  | some x => some (x + n)
  | none => none

/-- Subtraction of an integer from a JS number (`NaN` absorbs). -/
def jsSub (a : JSNum) (n : Int) : JSNum :=
  match a with
  | some x => some (x - n)
  | none => none

/-- JS `ToString` on the numbers of this program: decimal representation,
`NaN` prints as `"NaN"`. Models the template-literal interpolation the
source uses. -/
def jsStr : JSNum → String
  | some i => Int.repr i
  | none => "NaN"

/-! ## JS `Date` values

A `Date` is a timestamp; this program only ever reads the (local = UTC)
year / month / day and always rebuilds dates at midnight, so a valid `Date`
is modelled as a proleptic-Gregorian civil triple: `year`, 0-based `month0`
(what `getMonth` returns) and 1-based `day`. The invalid-instant sentinel
(`NaN` timestamp, prints as `"Invalid Date"`) is `JSDate.invalid`. -/

/-- A JS `Date` object: the invalid-instant sentinel, or a civil date. -/
inductive JSDate where
  | invalid : JSDate
  | mk (year : Int) (month0 : Nat) (day : Nat) : JSDate
deriving DecidableEq, Repr

/-- `Date.prototype.getFullYear` (NaN on the invalid sentinel). -/
def JSDate.getFullYear : JSDate → JSNum
  | JSDate.invalid => none
  | JSDate.mk y _ _ => some y

/-- `Date.prototype.getMonth`: 0-based month (NaN on the invalid sentinel). -/
def JSDate.getMonth : JSDate → JSNum
  | JSDate.invalid => none
  | JSDate.mk _ m0 _ => some (m0 : Int)

/-- `Date.prototype.getDate`: 1-based day of month (NaN on the invalid sentinel). -/
def JSDate.getDate : JSDate → JSNum
  | JSDate.invalid => none
  | JSDate.mk _ _ d => some (d : Int)

/-- Gregorian leap-year rule as ECMAScript's `Date` arithmetic uses it. -/
def gregIsLeap (y : Int) : Bool :=
  decide ((y % 4 = 0 ∧ y % 100 ≠ 0) ∨ y % 400 = 0)

/-- Days in a month of the proleptic Gregorian calendar (month is 1-based),
as ECMAScript's `Date` uses for parsing and normalization. -/
def gregDaysInMonth (m y : Int) : Int :=
  if m = 2 then (if gregIsLeap y then 29 else 28)
  else if m = 4 ∨ m = 6 ∨ m = 9 ∨ m = 11 then 30
  else 31

/-- Days since 1970-01-01 of a civil date (proleptic Gregorian, month 1-based).
Standard era-based conversion, matching ECMAScript `MakeDay`. -/
def daysFromCivil (y m d : Int) : Int :=
  let y2 := if m ≤ 2 then y - 1 else y
  let era := Int.fdiv y2 400
  let yoe := y2 - era * 400
  let mp := Int.emod (m + 9) 12
  let doy := (153 * mp + 2) / 5 + d - 1
  let doe := yoe * 365 + yoe / 4 - yoe / 100 + doy
  era * 146097 + doe - 719468

/-- Civil date (year, 1-based month, day) of a count of days since 1970-01-01.
Inverse of `daysFromCivil`. -/
def civilFromDays (z0 : Int) : Int × Int × Int :=
  let z := z0 + 719468
  let era := Int.fdiv z 146097
  let doe := z - era * 146097
  let yoe := (doe - doe / 1460 + doe / 36524 - doe / 146096) / 365
  let y := yoe + era * 400
  let doy := doe - (365 * yoe + yoe / 4 - yoe / 100)
  let mp := (5 * doy + 2) / 153
  let d := doy - (153 * mp + 2) / 5 + 1
  let m := if mp < 10 then mp + 3 else mp - 9
  (if m ≤ 2 then y + 1 else y, m, d)

/-- ECMAScript `MakeDay` + `TimeClip` normalization: given a year, a 0-based
month (any integer, carrying into the year) and a day (any integer, carrying
into adjacent months), produce the normalized `Date`, or the invalid sentinel
when the result leaves the representable ±100 000 000-day range. -/
def normalizeYMD (y m0 d : Int) : JSDate :=
  let ym := y + Int.fdiv m0 12
  let mn := Int.emod m0 12
  let z := daysFromCivil ym (mn + 1) 1 + (d - 1)
  if z < -100000000 ∨ 100000000 < z then JSDate.invalid
  else
    match civilFromDays z with
    | (yy, mm, dd) => JSDate.mk yy (mm - 1).toNat dd.toNat

/-- `Date.prototype.setFullYear` (single-argument form). On the invalid
sentinel ECMAScript first resets the time value to `+0` (1970-01-01) and then
sets the year; a `NaN` argument yields the invalid sentinel. -/
def JSDate.setFullYear : JSDate → JSNum → JSDate
  | _, none => JSDate.invalid
  | JSDate.invalid, some y => normalizeYMD y 0 1
  | JSDate.mk _ m0 d, some y => normalizeYMD y (m0 : Int) (d : Int)

/-- `Date.prototype.setMonth` (single-argument form, 0-based month with carry). -/
def JSDate.setMonth : JSDate → JSNum → JSDate
  | _, none => JSDate.invalid
  | JSDate.invalid, some _ => JSDate.invalid
  | JSDate.mk y _ d, some m => normalizeYMD y m (d : Int)

/-- `Date.prototype.setDate` (day-of-month with carry; `0` is the last day of
the previous month). -/
def JSDate.setDate : JSDate → JSNum → JSDate
  | _, none => JSDate.invalid
  | JSDate.invalid, some _ => JSDate.invalid
  | JSDate.mk y m0 _, some d => normalizeYMD y (m0 : Int) d

/-! ## The string helpers of the platform -/

/-- A decimal digit character (the regex class `\d`): code point between
`'0'` (48) and `'9'` (57). -/
def isDigitChar (c : Char) : Bool := decide (48 ≤ c.toNat) && decide (c.toNat ≤ 57)

/-- Numeric value of a list of digit characters (most significant first). -/
def natOfDigits (l : List Char) : Nat :=
  l.foldl (fun acc c => 10 * acc + (c.toNat - 48)) 0

/-- JS `String.prototype.split("-")` at the character-list level: splits at
every `'-'`, keeping empty segments; always returns at least one segment. -/
def splitDash : List Char → List (List Char)
  | [] => [[]]
  | c :: rest =>
    if c = '-' then [] :: splitDash rest
    else
      match splitDash rest with
      | s :: ss => (c :: s) :: ss
      | [] => [[c]]

/-- JS `Array.prototype.join("-")` at the character-list level. -/
def joinDash : List (List Char) → List Char
  | [] => []
  | [x] => x
  | x :: xs => x ++ '-' :: joinDash xs

/-! ## The `NativeDate` class (from `src/NativeDateHelper.js`) -/

/-- The constructor's input universe: the JS values relevant to the class.
`date` is a `Date` object (duck-typed date-like: `typeof` is `"object"` and
`getFullYear()` returns a number); `obj` is a plain object without a callable
`getFullYear` (calling it throws `TypeError`); `objWeird` is an object whose
`getFullYear()` is callable but returns a non-number. -/
inductive JSValue where
  | undef : JSValue
  | nullv : JSValue
  | num (n : Int) : JSValue
  | boolv (b : Bool) : JSValue
  | str (s : String) : JSValue
  | date (d : JSDate) : JSValue
  | obj : JSValue
  | objWeird : JSValue
deriving DecidableEq

/-- JS `typeof v === "object"` for the modelled values (`typeof null` is
`"object"` — the classic quirk). -/
def typeofIsObject : JSValue → Bool
  | JSValue.nullv => true
  | JSValue.date _ => true
  | JSValue.obj => true
  | JSValue.objWeird => true
  | _ => false

/-- The class's `isDate` probe:
`if (typeof potentialDate !== "object") return false;`
`return typeof potentialDate.getFullYear() === "number";`
Calling `getFullYear` on `null` or on a plain object throws `TypeError`,
modelled as `Except.error ()`. A `Date` always answers with a number
(`NaN` included), so every `Date` — even the invalid sentinel — passes. -/
def NativeDate.isDate (potentialDate : JSValue) : Except Unit Bool :=
  if typeofIsObject potentialDate = false then Except.ok false
  else
    match potentialDate with
    | JSValue.date _ => Except.ok true
    | JSValue.objWeird => Except.ok false
    | _ => Except.error ()

/-- `[12]\d{3}` — a four-character year segment starting with `1` or `2`. -/
def yearOk : List Char → Bool
  | [c1, c2, c3, c4] =>
    (c1 = '1' || c1 = '2') && isDigitChar c2 && isDigitChar c3 && isDigitChar c4
  | _ => false

/-- `0?[1-9]|1[0-2]` — a month segment (code points: `'1'` = 49, `'9'` = 57,
`'0'` = 48, `'2'` = 50). -/
def monthOk : List Char → Bool
  | [c] => decide (49 ≤ c.toNat) && decide (c.toNat ≤ 57)
  | [c0, c] =>
    if c0 = '0' then decide (49 ≤ c.toNat) && decide (c.toNat ≤ 57)
    else if c0 = '1' then decide (48 ≤ c.toNat) && decide (c.toNat ≤ 50)
    else false
  | _ => false

/-- `0?[1-9]|[12]\d|3[01]` — a day segment. -/
def dayOk : List Char → Bool
  | [c] => decide (49 ≤ c.toNat) && decide (c.toNat ≤ 57)
  | [c0, c] =>
    if c0 = '0' then decide (49 ≤ c.toNat) && decide (c.toNat ≤ 57)
    else if c0 = '1' ∨ c0 = '2' then isDigitChar c
    else if c0 = '3' then (c = '0' || c = '1')
    else false
  | _ => false

/-- The class's ISO grammar test on a string: the anchored regex
`^([12]\d{3}-(0?[1-9]|1[0-2])-(0?[1-9]|[12]\d|3[01]))$`, phrased over the
dash-separated segments (the segment patterns contain no `-`, so the anchored
match is exactly: three segments, each matching its class). -/
def isIsoStr (s : String) : Bool :=
  match splitDash s.data with
  | [a, b, c] => yearOk a && monthOk b && dayOk c
  | _ => false

/-- The class's `isIso`: `false` unless the value is a non-empty string, then
the regex test. -/
def NativeDate.isIso : JSValue → Bool
  | JSValue.str s => if s = "" then false else isIsoStr s
  | _ => false

/-- The mapped cell of `addLeadingZeros`:
`item => (item.length === 1 ? `0${item}` : item)`. -/
def padSeg (item : List Char) : List Char :=
  if item.length = 1 then '0' :: item else item

/-- The class's `addLeadingZeros`: a 10-character string is returned as is;
otherwise split at `-`, left-pad every single-character segment with `0`,
and re-join. -/
def addLeadingZeros (dateString : String) : String :=
  if dateString.length = 10 then dateString
  else String.mk (joinDash ((splitDash dateString.data).map padSeg))

/-- The class's `toIso(year, month, day)`:
``addLeadingZeros(`${year}-${month}-${day}`)``. -/
def toIso (year month day : JSNum) : String :=
  addLeadingZeros (jsStr year ++ "-" ++ jsStr month ++ "-" ++ jsStr day)

/-- `new Date(string)` for the strings this program produces: the ECMAScript
date-only Date Time String Format `YYYY-MM-DD` (exactly 4-2-2 digits),
interpreted as midnight UTC, with out-of-range components rejected as the
invalid sentinel. Strings not in that format (which ECMAScript leaves
implementation-defined) are modelled as invalid. -/
def jsNewDate (s : String) : JSDate :=
  match splitDash s.data with
  | [ys, ms, ds] =>
    if ys.length = 4 && ms.length = 2 && ds.length = 2
        && ys.all isDigitChar && ms.all isDigitChar && ds.all isDigitChar then
      let y := natOfDigits ys
      let m := natOfDigits ms
      let d := natOfDigits ds
      if 1 ≤ m && m ≤ 12 && 1 ≤ d && decide ((d : Int) ≤ gregDaysInMonth (m : Int) (y : Int)) then
        JSDate.mk (y : Int) (m - 1) d
      else JSDate.invalid
    else JSDate.invalid
  | _ => JSDate.invalid

/-- The instance state: the wrapped `Date`, the stored source string and the
healing flag. -/
structure NativeDate where
  generatedDate : JSDate
  dateString : String
  isHealed : Bool
deriving DecidableEq

/-- Getter `year`: `this.generatedDate.getFullYear()`. -/
def NativeDate.year (nd : NativeDate) : JSNum := nd.generatedDate.getFullYear

/-- Getter `month`: `this.generatedDate.getMonth() + 1` (1-based). -/
def NativeDate.month (nd : NativeDate) : JSNum := jsAdd nd.generatedDate.getMonth 1

/-- Getter `day`: `this.generatedDate.getDate()`. -/
def NativeDate.day (nd : NativeDate) : JSNum := nd.generatedDate.getDate

/-- The `isoString` computation applied to a bare `Date`:
`toIso` of its year, 1-based month and day. -/
def isoOfDate (g : JSDate) : String :=
  toIso g.getFullYear (jsAdd g.getMonth 1) g.getDate

/-- Getter `isoString`: `this.toIso(this.year, this.month, this.day)`. -/
def NativeDate.isoString (nd : NativeDate) : String := isoOfDate nd.generatedDate

/-- The constructor, with the current instant `now` (what `new Date()` yields)
passed explicitly. Control flow of the source:
1. `isDate` probe — throws `TypeError` on `null` and on plain objects without
   a callable `getFullYear` (the `Except.error` arms);
2. date-like input is adopted and `dateString` is set to the computed
   `isoString`;
3. otherwise, a string passing `isIso` is zero-padded, stored, and parsed;
4. anything else is healed: empty `dateString`, `new Date()`, `isHealed = true`.
The trailing `console.warn` on an invalid instant is a side effect with no
bearing on the state and is not modelled. -/
def NativeDate.construct (now : JSDate) (v : JSValue) : Except Unit NativeDate :=
  match NativeDate.isDate v, v with
  | Except.error e, _ => Except.error e
  | Except.ok true, JSValue.date g =>
    Except.ok { generatedDate := g, dateString := isoOfDate g, isHealed := false }
  | Except.ok true, _ =>
    -- unreachable: `isDate` answers `true` only on `Date` values
    Except.ok { generatedDate := now, dateString := "", isHealed := true }
  | Except.ok false, _ =>
    if NativeDate.isIso v then
      match v with
      | JSValue.str s =>
        Except.ok { generatedDate := jsNewDate (addLeadingZeros s),
                    dateString := addLeadingZeros s, isHealed := false }
      | _ =>
        -- unreachable: `isIso` answers `true` only on strings
        Except.ok { generatedDate := now, dateString := "", isHealed := true }
    else
      Except.ok { generatedDate := now, dateString := "", isHealed := true }

/-- The exported factory `nativeDateHelper` (the spec's `makeCalendarDate`). -/
def nativeDateHelper (now : JSDate) (v : JSValue) : Except Unit NativeDate :=
  NativeDate.construct now v

/-- The class's `isValidDateString`: recompute `toIso(year, month, day)` and
compare (`===`) with the stored `dateString`. -/
def NativeDate.isValidDateString (nd : NativeDate) : Bool :=
  toIso nd.year nd.month nd.day == nd.dateString

/-- The class's `isLeapYear` on a JS number:
`(year % 4 === 0 && year % 100 !== 0) || year % 400 === 0`
(`NaN` fails every `===`/`!==` test in the way that makes the result false). -/
def NativeDate.isLeapYear : JSNum → Bool
  | none => false
  | some y => decide (y % 4 = 0) && decide (y % 100 ≠ 0) || decide (y % 400 = 0)

/-- The class's `daysInMonth(m, y)` switch on a JS number (`switch (NaN)`
matches no case and falls to the `default` arm, 31). -/
def NativeDate.daysInMonth (m y : JSNum) : Int :=
  match m with
  | none => 31
  | some mi =>
    if mi = 2 then (if NativeDate.isLeapYear y then 29 else 28)
    else if mi = 9 ∨ mi = 4 ∨ mi = 6 ∨ mi = 11 then 30
    else 31

/-- The class's `isValidDate`. The leading guard
`!this.generatedDate || (generatedDate && typeof generatedDate !== "object" && …)`
is identically false for a constructed instance (`generatedDate` is always a
truthy object and `typeof` a `Date` is `"object"`), so the method reduces to
the range check — which an invalid sentinel still fails, all its derived
fields being `NaN`. -/
def NativeDate.isValidDate (nd : NativeDate) : Bool :=
  jsGe nd.month (some 1) && jsLe nd.month (some 12) && jsGt nd.day (some 0)
    && jsLe nd.day (some (NativeDate.daysInMonth nd.month nd.year))

/-- The class's `isEqual`: component-wise `===` on year, month, day. -/
def NativeDate.isEqual (nd secondDate : NativeDate) : Bool :=
  jsEq nd.year secondDate.year && jsEq nd.month secondDate.month
    && jsEq nd.day secondDate.day

/-- The class's `isBefore` (note the source compares with `>`). -/
def NativeDate.isBefore (nd secondDate : NativeDate) : Bool :=
  if jsGt nd.year secondDate.year then true
  else if jsEq nd.year secondDate.year && jsGt nd.month secondDate.month then true
  else jsEq nd.year secondDate.year && jsEq nd.month secondDate.month
    && jsGt nd.day secondDate.day

/-- The class's `isAfter` (note the source compares with `<`). -/
def NativeDate.isAfter (nd secondDate : NativeDate) : Bool :=
  if jsLt nd.year secondDate.year then true
  else if jsEq nd.year secondDate.year && jsLt nd.month secondDate.month then true
  else jsEq nd.year secondDate.year && jsEq nd.month secondDate.month
    && jsLt nd.day secondDate.day

/-- The class's `updateGeneratedDate`: rebuild `dateString` from the current
derived fields via the template literal plus `addLeadingZeros`, and re-parse
it into a fresh `generatedDate`. (The JS method returns the new `Date`; the
model returns the updated instance, whose `generatedDate` is that value.) -/
def NativeDate.updateGeneratedDate (nd : NativeDate) : NativeDate :=
  let newDateString := jsStr nd.year ++ "-" ++ jsStr nd.month ++ "-" ++ jsStr nd.day
  let isoDateString := addLeadingZeros newDateString
  { nd with dateString := isoDateString, generatedDate := jsNewDate isoDateString }

/-- `addYear`: `this.generatedDate.setFullYear(this.year + number)` then
`updateGeneratedDate`. -/
def NativeDate.addYear (nd : NativeDate) (number : Int) : NativeDate :=
  ({ nd with generatedDate := nd.generatedDate.setFullYear (jsAdd nd.year number) }).updateGeneratedDate

/-- `addMonth`: `this.generatedDate.setMonth(this.month + number)` then
`updateGeneratedDate`. (`this.month` is 1-based while `setMonth` takes a
0-based month.) -/
def NativeDate.addMonth (nd : NativeDate) (number : Int) : NativeDate :=
  ({ nd with generatedDate := nd.generatedDate.setMonth (jsAdd nd.month number) }).updateGeneratedDate

/-- `addDay`: `this.generatedDate.setDate(this.day + number)` then
`updateGeneratedDate`. -/
def NativeDate.addDay (nd : NativeDate) (number : Int) : NativeDate :=
  ({ nd with generatedDate := nd.generatedDate.setDate (jsAdd nd.day number) }).updateGeneratedDate

/-- `subtractYear`: `setFullYear(this.year - number)` then rebuild. -/
def NativeDate.subtractYear (nd : NativeDate) (number : Int) : NativeDate :=
  ({ nd with generatedDate := nd.generatedDate.setFullYear (jsSub nd.year number) }).updateGeneratedDate

/-- `subtractMonth`: `setMonth(this.month - number)` then rebuild. -/
def NativeDate.subtractMonth (nd : NativeDate) (number : Int) : NativeDate :=
  ({ nd with generatedDate := nd.generatedDate.setMonth (jsSub nd.month number) }).updateGeneratedDate

/-- `subtractDay`: `setDate(this.day - number)` then rebuild. -/
def NativeDate.subtractDay (nd : NativeDate) (number : Int) : NativeDate :=
  ({ nd with generatedDate := nd.generatedDate.setDate (jsSub nd.day number) }).updateGeneratedDate

/-! ## Spec-side predicates -/

/-- The spec's canonical-format property, from its words: the string is a
4-digit zero-padded year, a 2-digit zero-padded month and a 2-digit
zero-padded day joined by `-`. -/
def isPaddedIso (s : String) : Bool :=
  match splitDash s.data with
  | [ys, ms, ds] =>
    ys.length = 4 && ms.length = 2 && ds.length = 2
      && ys.all isDigitChar && ms.all isDigitChar && ds.all isDigitChar
  | _ => false

/-- The spec's `daysInMonth` description, from its words: February has 29 days
in a Gregorian leap year (divisible by 4 and not by 100, or divisible by 400)
and 28 otherwise; April, June, September and November have 30; all other
months have 31. -/
def daysInMonthSpec (m y : Int) : Int :=
  if m = 2 then (if (4 ∣ y ∧ ¬ (100 ∣ y)) ∨ 400 ∣ y then 29 else 28)
  else if m = 4 ∨ m = 6 ∨ m = 9 ∨ m = 11 then 30
  else 31

/-! ## C1 — `addMonth` and the native month setter -/

/-- C1: the claim says `addMonth(n)` advances the date by exactly `n` calendar
months, so that `makeCalendarDate("2024-01-31").addMonth(1)` lands on the
native carry result for a 31st of February. The code instead passes the
1-based `this.month` to the 0-based `setMonth`, advancing by `n + 1` months:
the result is `2024-03-31`, two calendar months ahead, and February's length
never enters. This theorem evaluates the code at the claim's own input. -/
theorem claim1_addMonth_off_by_one (now : JSDate) :
    (nativeDateHelper now (JSValue.str "2024-01-31")).map
        (fun d => (d.addMonth 1).isoString) = Except.ok "2024-03-31"
      ∧ (nativeDateHelper now (JSValue.str "2024-01-31")).map
        (fun d => ((d.addMonth 1).year, (d.addMonth 1).month, (d.addMonth 1).day))
        = Except.ok (some 2024, some 3, some 31) := by
  constructor <;> rfl

/-! ## C2 — the constructor can throw -/

/-- C2: the claim says construction never throws for any input whatsoever,
`null` and plain objects included. But `isDate` guards only with
`typeof potentialDate !== "object"` and then calls
`potentialDate.getFullYear()`; since `typeof null === "object"`, passing
`null` (and likewise a plain object) reaches the call and throws a
`TypeError`. This theorem evaluates the constructor at `null`. -/
theorem claim2_construct_null_throws (now : JSDate) :
    nativeDateHelper now JSValue.nullv = Except.error () := rfl

/-! ## C6 — healing of unrecognized input -/

/-- C6: for `undefined` the constructor indeed heals exactly as the claim says
(empty `sourceText`, `wasHealed = true`, timestamp from the current instant,
`isoString` equal to today's date) — but the claim quantifies over every input
that is neither date-like nor a matching ISO string, and a plain object
without date accessors is such an input on which the constructor throws
instead of healing. The theorem records both evaluations. -/
theorem claim6_healing_undefined_but_object_throws (now : JSDate) :
    nativeDateHelper now JSValue.undef
        = Except.ok { generatedDate := now, dateString := "", isHealed := true }
      ∧ (nativeDateHelper now JSValue.undef).map (fun d => d.isoString)
        = Except.ok (isoOfDate now)
      ∧ nativeDateHelper now JSValue.obj = Except.error () := by
  exact ⟨rfl, rfl, rfl⟩

/-! ## C8 — `subtractDay` across a month boundary -/

/-- C8: subtracting one day from 2024-03-01 underflows through `setDate(0)`
into the last day of February of the leap year 2024: the instance's
`isoString` becomes `"2024-02-29"` (and the stored `dateString` follows). -/
theorem claim8_subtractDay_leap_underflow (now : JSDate) :
    (nativeDateHelper now (JSValue.str "2024-03-01")).map
        (fun d => ((d.subtractDay 1).isoString, (d.subtractDay 1).dateString))
      = Except.ok ("2024-02-29", "2024-02-29") := rfl

/-! ## C4/C5 — counterexamples -/

/-- C4 counterexample: an instance constructed from a date-like object has
`isValidDateString() = true`, not `false` as the claim states — the
constructor stores the computed `isoString` as `dateString`, so the exact
string comparison succeeds. -/
theorem claim4_cex_date_source_is_valid_string :
    (nativeDateHelper (JSDate.mk 2026 9 11) (JSValue.date (JSDate.mk 2024 4 7))).map
        (fun d => (d.isValidDateString, d.dateString))
      = Except.ok (true, "2024-05-07") := rfl

/-- C5 counterexample: a reachable instance with a perfectly valid timestamp
(constructed from a date object in year 10000) has
`isoString = "10000-10-1"` — a 5-digit year and an unpadded 1-digit day —
because `addLeadingZeros` trusts any 10-character string. -/
theorem claim5_cex_year_10000 :
    (nativeDateHelper (JSDate.mk 2026 9 11) (JSValue.date (JSDate.mk 10000 9 1))).map
        (fun d => (d.isoString, isPaddedIso d.isoString, d.isValidDate))
      = Except.ok ("10000-10-1", false, true) := rfl

/-! ## Bridging lemmas for the validation helpers -/

/-- The class's `%`-based leap test agrees with the Gregorian divisibility rule. -/
lemma isLeapYear_eq_dvd (y : Int) :
    NativeDate.isLeapYear (some y) = decide ((4 ∣ y ∧ ¬ (100 ∣ y)) ∨ 400 ∣ y) := by
  have h4 : y % 4 = 0 ↔ 4 ∣ y := by omega
  have h100 : y % 100 = 0 ↔ 100 ∣ y := by omega
  have h400 : y % 400 = 0 ↔ 400 ∣ y := by omega
  unfold NativeDate.isLeapYear
  rw [Bool.eq_iff_iff]
  simp [h4, h100, h400]

/-- On actual numbers the class's `daysInMonth` switch computes the
spec-described month lengths. -/
lemma daysInMonth_eq_spec (m y : Int) :
    NativeDate.daysInMonth (some m) (some y) = daysInMonthSpec m y := by
  unfold NativeDate.daysInMonth daysInMonthSpec
  rw [isLeapYear_eq_dvd]
  by_cases h2 : m = 2
  · simp only [h2, if_pos rfl]
    by_cases hl : (4 ∣ y ∧ ¬ (100 ∣ y)) ∨ 400 ∣ y <;> simp [hl]
  · have h30 : (m = 9 ∨ m = 4 ∨ m = 6 ∨ m = 11) ↔ (m = 4 ∨ m = 6 ∨ m = 9 ∨ m = 11) := by
      tauto
    simp only [if_neg h2, h30]

/-! ## C9 — `isValidDate` -/

/-- C9: `isValidDate()` is false on the invalid-instant sentinel (every
derived field is `NaN`, which fails the range comparisons), and on a valid
timestamp it is true exactly when `1 ≤ month ≤ 12` and
`1 ≤ day ≤ daysInMonth(month, year)` with the spec's Gregorian month lengths
(February 29 in leap years — divisible by 4 and not by 100, or by 400 — and
28 otherwise; 30 for April, June, September, November; 31 elsewhere). -/
theorem claim9_isValidDate_range_check (nd : NativeDate) :
    (nd.generatedDate = JSDate.invalid → nd.isValidDate = false)
    ∧ (∀ (y : Int) (m0 d : Nat), nd.generatedDate = JSDate.mk y m0 d →
        (nd.isValidDate = true ↔
          (1 ≤ (m0 : Int) + 1 ∧ (m0 : Int) + 1 ≤ 12 ∧ 1 ≤ (d : Int)
            ∧ (d : Int) ≤ daysInMonthSpec ((m0 : Int) + 1) y))) := by
  constructor
  · intro h
    simp [NativeDate.isValidDate, NativeDate.month, h, JSDate.getMonth, jsAdd, jsGe]
  · intro y m0 d h
    have hdm := daysInMonth_eq_spec ((m0 : Int) + 1) y
    simp only [NativeDate.isValidDate, NativeDate.month, NativeDate.year, NativeDate.day, h,
      JSDate.getMonth, JSDate.getFullYear, JSDate.getDate, jsAdd, jsGe, jsLe, jsGt, hdm,
      Bool.and_eq_true, decide_eq_true_eq]
    generalize daysInMonthSpec ((m0 : Int) + 1) y = K
    omega

/-- C9 witness: the leap day 2024-02-29 is accepted by `isValidDate`. -/
theorem claim9_witness :
    ({ generatedDate := JSDate.mk 2024 1 29, dateString := "2024-02-29",
       isHealed := false } : NativeDate).isValidDate = true := by
  refine ((claim9_isValidDate_range_check _).2 2024 1 29 rfl).mpr ?_
  refine ⟨by omega, by omega, by omega, ?_⟩
  have h : daysInMonthSpec (((1 : Nat) : Int) + 1) 2024 = 29 := by decide
  omega

/-! ## C3 — comparison polarity -/

/-- C3: `isBefore` returns true exactly on the claim's `>`-cascade (year, then
month on equal years, then day on equal months), `isAfter` on the mirror
`<`-cascade, and in particular the 2024-01-01 instance `isBefore` the
2023-01-01 instance. -/
theorem claim3_comparison_polarity (a b : NativeDate) (now1 now2 : JSDate) :
    (a.isBefore b
      = (jsGt a.year b.year
         || jsEq a.year b.year && jsGt a.month b.month
         || jsEq a.year b.year && jsEq a.month b.month && jsGt a.day b.day))
    ∧ (a.isAfter b
      = (jsLt a.year b.year
         || jsEq a.year b.year && jsLt a.month b.month
         || jsEq a.year b.year && jsEq a.month b.month && jsLt a.day b.day))
    ∧ ((nativeDateHelper now1 (JSValue.str "2024-01-01")).bind (fun x =>
        (nativeDateHelper now2 (JSValue.str "2023-01-01")).map (fun y => x.isBefore y))
      = Except.ok true) := by
  refine ⟨?_, ?_, rfl⟩
  · unfold NativeDate.isBefore
    cases h1 : jsGt a.year b.year <;>
      cases h2 : jsEq a.year b.year <;>
        cases h3 : jsGt a.month b.month <;> simp
  · unfold NativeDate.isAfter
    cases h1 : jsLt a.year b.year <;>
      cases h2 : jsEq a.year b.year <;>
        cases h3 : jsLt a.month b.month <;> simp

/-! ## C10 — trichotomy of the comparisons -/

/-- On two instances with valid timestamps, the three comparison methods
reduce to decidable lexicographic tests on the civil triples. -/
lemma compare_methods_reduce (a b : NativeDate) (y1 y2 : Int) (m1 d1 m2 d2 : Nat)
    (ha : a.generatedDate = JSDate.mk y1 m1 d1)
    (hb : b.generatedDate = JSDate.mk y2 m2 d2) :
    a.isEqual b = (decide (y1 = y2) && decide (m1 = m2) && decide (d1 = d2))
    ∧ a.isBefore b
      = (decide (y2 < y1) || decide (y1 = y2) && decide (m2 < m1)
         || decide (y1 = y2) && decide (m1 = m2) && decide (d2 < d1))
    ∧ a.isAfter b
      = (decide (y1 < y2) || decide (y1 = y2) && decide (m1 < m2)
         || decide (y1 = y2) && decide (m1 = m2) && decide (d1 < d2)) := by
  have hm : ((m1 : Int) + 1 = (m2 : Int) + 1) ↔ (m1 = m2) := by omega
  have hmlt : ((m2 : Int) + 1 < (m1 : Int) + 1) ↔ (m2 < m1) := by omega
  have hmlt2 : ((m1 : Int) + 1 < (m2 : Int) + 1) ↔ (m1 < m2) := by omega
  have hd : ((d1 : Int) = (d2 : Int)) ↔ (d1 = d2) := by omega
  have hdlt : ((d2 : Int) < (d1 : Int)) ↔ (d2 < d1) := by omega
  have hdlt2 : ((d1 : Int) < (d2 : Int)) ↔ (d1 < d2) := by omega
  refine ⟨?_, ?_, ?_⟩
  · simp only [NativeDate.isEqual, NativeDate.year, NativeDate.month, NativeDate.day,
      ha, hb, JSDate.getFullYear, JSDate.getMonth, JSDate.getDate, jsAdd, jsEq,
      hm, hd]
  · simp only [NativeDate.isBefore, NativeDate.year, NativeDate.month, NativeDate.day,
      ha, hb, JSDate.getFullYear, JSDate.getMonth, JSDate.getDate, jsAdd, jsEq, jsGt,
      hm, hd, hmlt, hdlt]
    cases h1 : decide (y2 < y1) <;> cases h2 : decide (y1 = y2) <;>
      cases h3 : decide (m2 < m1) <;> simp
  · simp only [NativeDate.isAfter, NativeDate.year, NativeDate.month, NativeDate.day,
      ha, hb, JSDate.getFullYear, JSDate.getMonth, JSDate.getDate, jsAdd, jsEq, jsLt,
      hm, hd, hmlt2, hdlt2]
    cases h1 : decide (y1 < y2) <;> cases h2 : decide (y1 = y2) <;>
      cases h3 : decide (m1 < m2) <;> simp

/-- C10: for two instances whose timestamps are valid instants, exactly one of
`isEqual`, `isBefore`, `isAfter` answers true (so `isBefore` and `isAfter` are
never both true, and both are false exactly when `isEqual` is true). -/
theorem claim10_comparison_trichotomy (a b : NativeDate)
    (ha : a.generatedDate ≠ JSDate.invalid) (hb : b.generatedDate ≠ JSDate.invalid) :
    (a.isEqual b = true ∧ a.isBefore b = false ∧ a.isAfter b = false)
    ∨ (a.isBefore b = true ∧ a.isEqual b = false ∧ a.isAfter b = false)
    ∨ (a.isAfter b = true ∧ a.isEqual b = false ∧ a.isBefore b = false) := by
  rcases hga : a.generatedDate with _ | ⟨y1, m1, d1⟩
  · exact absurd hga ha
  rcases hgb : b.generatedDate with _ | ⟨y2, m2, d2⟩
  · exact absurd hgb hb
  obtain ⟨he, hbf, haf⟩ := compare_methods_reduce a b y1 y2 m1 d1 m2 d2 hga hgb
  rw [he, hbf, haf]
  rcases lt_trichotomy y1 y2 with hy | hy | hy
  · refine Or.inr (Or.inr ?_)
    have hy2 : ¬ y2 < y1 := by omega
    have hy3 : y1 ≠ y2 := by omega
    simp [hy, hy2, hy3]
  · subst hy
    rcases lt_trichotomy m1 m2 with hmm | hmm | hmm
    · refine Or.inr (Or.inr ?_)
      have h1 : ¬ m2 < m1 := by omega
      have h2 : m1 ≠ m2 := by omega
      simp [hmm, h1, h2]
    · subst hmm
      rcases lt_trichotomy d1 d2 with hdd | hdd | hdd
      · refine Or.inr (Or.inr ?_)
        have h1 : ¬ d2 < d1 := by omega
        have h2 : d1 ≠ d2 := by omega
        simp [hdd, h1, h2]
      · subst hdd
        exact Or.inl (by simp)
      · refine Or.inr (Or.inl ?_)
        have h1 : ¬ d1 < d2 := by omega
        have h2 : d1 ≠ d2 := by omega
        simp [hdd, h1, h2]
    · refine Or.inr (Or.inl ?_)
      have h1 : ¬ m1 < m2 := by omega
      have h2 : m1 ≠ m2 := by omega
      simp [hmm, h1, h2]
  · refine Or.inr (Or.inl ?_)
    have hy2 : ¬ y1 < y2 := by omega
    have hy3 : y1 ≠ y2 := by omega
    simp [hy, hy2, hy3]

/-- C10 witness: the trichotomy applied to the concrete instances for
2024-05-07 and 2024-05-09 (the `isBefore` branch, given the inverted
polarity, is the `isAfter`-true one). -/
theorem claim10_witness :
    let a : NativeDate :=
      { generatedDate := JSDate.mk 2024 4 7, dateString := "2024-05-07", isHealed := false }
    let b : NativeDate :=
      { generatedDate := JSDate.mk 2024 4 9, dateString := "2024-05-09", isHealed := false }
    (a.isEqual b = true ∧ a.isBefore b = false ∧ a.isAfter b = false)
    ∨ (a.isBefore b = true ∧ a.isEqual b = false ∧ a.isAfter b = false)
    ∨ (a.isAfter b = true ∧ a.isEqual b = false ∧ a.isBefore b = false) :=
  claim10_comparison_trichotomy
    { generatedDate := JSDate.mk 2024 4 7, dateString := "2024-05-07", isHealed := false }
    { generatedDate := JSDate.mk 2024 4 9, dateString := "2024-05-09", isHealed := false }
    (by decide) (by decide)

/-! ## Lemmas about dash-splitting and joining -/

/-- `splitDash` never returns the empty list of segments. -/
lemma splitDash_ne_nil (l : List Char) : splitDash l ≠ [] := by
  cases l with
  | nil => simp [splitDash]
  | cons c rest =>
    by_cases hc : c = '-'
    · simp [splitDash, hc]
    · simp only [splitDash, if_neg hc]
      cases h : splitDash rest <;> simp

/-- Joining the segments of a split gives back the original characters. -/
lemma joinDash_splitDash (l : List Char) : joinDash (splitDash l) = l := by
  induction l with
  | nil => rfl
  | cons c rest ih =>
    by_cases hc : c = '-'
    · subst hc
      simp only [splitDash, if_pos rfl]
      rcases h : splitDash rest with _ | ⟨s, ss⟩
      · exact absurd h (splitDash_ne_nil rest)
      · rw [h] at ih
        cases ss with
        | nil => simp [joinDash] at ih ⊢; exact ih
        | cons t ts => simp [joinDash] at ih ⊢; exact ih
    · simp only [splitDash, if_neg hc]
      rcases h : splitDash rest with _ | ⟨s, ss⟩
      · exact absurd h (splitDash_ne_nil rest)
      · rw [h] at ih
        cases ss with
        | nil =>
          simp [joinDash] at ih ⊢
          exact ih
        | cons t ts =>
          simp [joinDash] at ih ⊢
          rw [ih]

/-- Splitting a dash-free prefix followed by a dash peels off one segment. -/
lemma splitDash_append (A : List Char) (rest : List Char) (hA : '-' ∉ A) :
    splitDash (A ++ '-' :: rest) = A :: splitDash rest := by
  induction A with
  | nil => simp [splitDash]
  | cons c A ih =>
    have hc : c ≠ '-' := fun h => hA (by simp [h])
    have hA' : '-' ∉ A := fun h => hA (List.mem_cons_of_mem _ h)
    simp only [List.cons_append, splitDash, if_neg hc, List.append_eq]
    rw [ih hA']

/-- A dash-free list is a single segment. -/
lemma splitDash_noDash (A : List Char) (hA : '-' ∉ A) : splitDash A = [A] := by
  induction A with
  | nil => rfl
  | cons c A ih =>
    have hc : c ≠ '-' := fun h => hA (by simp [h])
    have hA' : '-' ∉ A := fun h => hA (List.mem_cons_of_mem _ h)
    simp only [splitDash, if_neg hc, ih hA']

/-- Splitting the canonical three-segment layout. -/
lemma splitDash_three (A B C : List Char)
    (hA : '-' ∉ A) (hB : '-' ∉ B) (hC : '-' ∉ C) :
    splitDash (A ++ '-' :: (B ++ '-' :: C)) = [A, B, C] := by
  rw [splitDash_append A _ hA, splitDash_append B _ hB, splitDash_noDash C hC]

/-- Padding never shrinks a segment. -/
lemma padSeg_length_ge (x : List Char) : x.length ≤ (padSeg x).length := by
  unfold padSeg
  split <;> simp

/-- Joining padded segments never shrinks the joined length. -/
lemma joinDash_map_padSeg_length (ll : List (List Char)) :
    (joinDash ll).length ≤ (joinDash (ll.map padSeg)).length := by
  induction ll with
  | nil => simp
  | cons x xs ih =>
    cases xs with
    | nil => simpa [joinDash] using padSeg_length_ge x
    | cons y ys =>
      have hx := padSeg_length_ge x
      simp only [List.map_cons, joinDash, List.length_append, List.length_cons]
      simp only [List.map_cons] at ih
      omega

/-- `addLeadingZeros` maps nonempty strings to nonempty strings. -/
lemma addLeadingZeros_ne_empty (s : String) (h : s.data ≠ []) :
    (addLeadingZeros s).data ≠ [] := by
  unfold addLeadingZeros
  by_cases hl : s.length = 10
  · simpa [hl] using h
  · simp only [if_neg hl]
    have h1 := joinDash_map_padSeg_length (splitDash s.data)
    rw [joinDash_splitDash] at h1
    have h2 : 0 < s.data.length := List.length_pos.mpr h
    intro hcon
    have : (joinDash ((splitDash s.data).map padSeg)).length = 0 := by
      simpa using congrArg List.length hcon
    omega

/-! ## Lemmas about decimal printing (`Nat.toDigits`) -/

/-- The accumulator of `Nat.toDigitsCore` is a suffix that can be split off. -/
lemma toDigitsCore_shift (fuel : Nat) :
    ∀ (n : Nat) (ds : List Char), n < fuel →
      Nat.toDigitsCore 10 fuel n ds = Nat.toDigitsCore 10 fuel n [] ++ ds := by
  induction fuel with
  | zero => intro n ds h; omega
  | succ f ih =>
    intro n ds h
    simp only [Nat.toDigitsCore]
    by_cases h0 : n / 10 = 0
    · simp [h0]
    · simp only [if_neg h0]
      have hlt : n / 10 < f := by omega
      rw [ih (n / 10) _ hlt, ih (n / 10) [Nat.digitChar (n % 10)] hlt]
      simp

/-- `Nat.toDigitsCore` does not depend on the fuel once it is sufficient. -/
lemma toDigitsCore_fuel (n : Nat) : ∀ (f1 f2 : Nat), n < f1 → n < f2 →
    Nat.toDigitsCore 10 f1 n [] = Nat.toDigitsCore 10 f2 n [] := by
  induction n using Nat.strong_induction_on with
  | _ n ih =>
    intro f1 f2 h1 h2
    cases f1 with
    | zero => omega
    | succ g1 =>
      cases f2 with
      | zero => omega
      | succ g2 =>
        simp only [Nat.toDigitsCore]
        by_cases h0 : n / 10 = 0
        · simp [h0]
        · simp only [if_neg h0]
          rw [toDigitsCore_shift _ _ _ (by omega), toDigitsCore_shift _ _ _ (by omega)]
          rw [ih (n / 10) (by omega) g1 g2 (by omega) (by omega)]
          rw [toDigitsCore_shift g2 (n / 10) [Nat.digitChar (n % 10)] (by omega)]
          simp

/-- Single-digit case of `Nat.toDigits`. -/
lemma toDigits_small (n : Nat) (h : n < 10) : Nat.toDigits 10 n = [Nat.digitChar n] := by
  unfold Nat.toDigits Nat.toDigitsCore
  have h0 : n / 10 = 0 := by omega
  simp [h0, Nat.mod_eq_of_lt h]

/-- Recursive step of `Nat.toDigits`. -/
lemma toDigits_step (n : Nat) (h : 10 ≤ n) :
    Nat.toDigits 10 n = Nat.toDigits 10 (n / 10) ++ [Nat.digitChar (n % 10)] := by
  unfold Nat.toDigits
  have hsucc : Nat.toDigitsCore 10 (n + 1) n []
      = Nat.toDigitsCore 10 n (n / 10) [Nat.digitChar (n % 10)] := by
    simp only [Nat.toDigitsCore]
    have h0 : ¬ n / 10 = 0 := by omega
    simp [h0]
  rw [hsucc, toDigitsCore_shift _ _ _ (by omega),
    toDigitsCore_fuel (n / 10) n (n / 10 + 1) (by omega) (by omega)]

/-- The decimal digits of a natural number between 1000 and 9999. -/
lemma repr_four_digits (n : Nat) (h1 : 1000 ≤ n) (h2 : n ≤ 9999) :
    (Nat.repr n).data
      = [Nat.digitChar (n / 10 / 10 / 10), Nat.digitChar (n / 10 / 10 % 10),
         Nat.digitChar (n / 10 % 10), Nat.digitChar (n % 10)] := by
  have hd : (Nat.repr n).data = Nat.toDigits 10 n := rfl
  rw [hd, toDigits_step n (by omega), toDigits_step (n / 10) (by omega),
    toDigits_step (n / 10 / 10) (by omega), toDigits_small (n / 10 / 10 / 10) (by omega)]
  simp

/-- The decimal digits of a natural number between 10 and 99. -/
lemma repr_two_digits (n : Nat) (h1 : 10 ≤ n) (h2 : n ≤ 99) :
    (Nat.repr n).data = [Nat.digitChar (n / 10), Nat.digitChar (n % 10)] := by
  have hd : (Nat.repr n).data = Nat.toDigits 10 n := rfl
  rw [hd, toDigits_step n (by omega), toDigits_small (n / 10) (by omega)]
  simp

/-- The decimal digits of a natural number below 10. -/
lemma repr_one_digit (n : Nat) (h : n < 10) : (Nat.repr n).data = [Nat.digitChar n] := by
  have hd : (Nat.repr n).data = Nat.toDigits 10 n := rfl
  rw [hd, toDigits_small n h]

/-- `Nat.digitChar` of a digit value: a digit character with code `48 + j`,
in particular not a dash. -/
lemma digitChar_props (j : Nat) (h : j ≤ 9) :
    isDigitChar (Nat.digitChar j) = true ∧ (Nat.digitChar j).toNat = 48 + j
      ∧ Nat.digitChar j ≠ '-' := by
  interval_cases j <;> exact ⟨by decide, by decide, by decide⟩

/-! ## Facts about the printed segments -/

/-- Facts about the printed month segment, for months 1–12: it is dash-free,
one or two characters, and after padding it is a two-digit segment matching
the month pattern whose numeric value is the month. -/
lemma month_repr_facts (m : Nat) (h1 : 1 ≤ m) (h2 : m ≤ 12) :
    '-' ∉ (Nat.repr m).data
    ∧ ((Nat.repr m).data.length = 1 ∨ (Nat.repr m).data.length = 2)
    ∧ monthOk (padSeg (Nat.repr m).data) = true
    ∧ (padSeg (Nat.repr m).data).length = 2
    ∧ (padSeg (Nat.repr m).data).all isDigitChar = true
    ∧ natOfDigits (padSeg (Nat.repr m).data) = m := by
  interval_cases m <;> decide

/-- Facts about the printed day segment, for days 1–31: dash-free, one or two
characters, and after padding a two-digit segment matching the day pattern
whose numeric value is the day. -/
lemma day_repr_facts (d : Nat) (h1 : 1 ≤ d) (h2 : d ≤ 31) :
    '-' ∉ (Nat.repr d).data
    ∧ ((Nat.repr d).data.length = 1 ∨ (Nat.repr d).data.length = 2)
    ∧ dayOk (padSeg (Nat.repr d).data) = true
    ∧ (padSeg (Nat.repr d).data).length = 2
    ∧ (padSeg (Nat.repr d).data).all isDigitChar = true
    ∧ natOfDigits (padSeg (Nat.repr d).data) = d := by
  interval_cases d <;> decide

/-- Facts about the printed year segment, for years 1000–9999: four digit
characters, no dash, and the numeric value is the year. -/
lemma year_repr_facts (n : Nat) (h1 : 1000 ≤ n) (h2 : n ≤ 9999) :
    (Nat.repr n).data.length = 4
    ∧ '-' ∉ (Nat.repr n).data
    ∧ (Nat.repr n).data.all isDigitChar = true
    ∧ natOfDigits (Nat.repr n).data = n := by
  have e := repr_four_digits n h1 h2
  have p1 := digitChar_props (n / 10 / 10 / 10) (by omega)
  have p2 := digitChar_props (n / 10 / 10 % 10) (by omega)
  have p3 := digitChar_props (n / 10 % 10) (by omega)
  have p4 := digitChar_props (n % 10) (by omega)
  rw [e]
  refine ⟨rfl, ?_, ?_, ?_⟩
  · intro hmem
    simp only [List.mem_cons, List.not_mem_nil, or_false] at hmem
    rcases hmem with h | h | h | h
    · exact p1.2.2 h.symm
    · exact p2.2.2 h.symm
    · exact p3.2.2 h.symm
    · exact p4.2.2 h.symm
  · simp [List.all_cons, p1.1, p2.1, p3.1, p4.1]
  · unfold natOfDigits
    simp only [List.foldl, p1.2.1, p2.2.1, p3.2.1, p4.2.1]
    omega

/-- For years 1000–2999 the printed year segment matches the grammar's
year pattern `[12]\d{3}`. -/
lemma year_repr_yearOk (n : Nat) (h1 : 1000 ≤ n) (h2 : n ≤ 2999) :
    yearOk (Nat.repr n).data = true := by
  have e := repr_four_digits n (by omega) (by omega)
  have p2 := digitChar_props (n / 10 / 10 % 10) (by omega)
  have p3 := digitChar_props (n / 10 % 10) (by omega)
  have p4 := digitChar_props (n % 10) (by omega)
  rw [e]
  have h12 : n / 10 / 10 / 10 = 1 ∨ n / 10 / 10 / 10 = 2 := by omega
  have hc1 : Nat.digitChar 1 = '1' := by decide
  have hc2 : Nat.digitChar 2 = '2' := by decide
  rcases h12 with h | h <;> rw [h] <;>
    simp [yearOk, hc1, hc2, p2.1, p3.1, p4.1]

/-- The upper bound 31 on every Gregorian month length. -/
lemma gregDaysInMonth_le (m y : Int) : gregDaysInMonth m y ≤ 31 := by
  unfold gregDaysInMonth
  split_ifs <;> omega

/-! ## The canonical form of `addLeadingZeros` and `toIso` -/

/-- On a three-segment input with a four-character first segment and one-or-two
character second and third segments, `addLeadingZeros` pads the short segments
(whether or not the ten-character fast path fires). -/
lemma addLeadingZeros_canonical (s : String) (A B C : List Char)
    (hs : s.data = A ++ '-' :: (B ++ '-' :: C))
    (hA : '-' ∉ A) (hB : '-' ∉ B) (hC : '-' ∉ C)
    (hA4 : A.length = 4) (hB12 : B.length = 1 ∨ B.length = 2)
    (hC12 : C.length = 1 ∨ C.length = 2) :
    (addLeadingZeros s).data = A ++ '-' :: (padSeg B ++ '-' :: padSeg C) := by
  have hlen : s.length = A.length + B.length + C.length + 2 := by
    show s.data.length = _
    rw [hs]
    simp
    omega
  unfold addLeadingZeros
  by_cases h10 : s.length = 10
  · have hB2 : B.length = 2 := by omega
    have hC2 : C.length = 2 := by omega
    have pB : padSeg B = B := by unfold padSeg; rw [hB2]; simp
    have pC : padSeg C = C := by unfold padSeg; rw [hC2]; simp
    simp only [if_pos h10]
    rw [hs, pB, pC]
  · simp only [if_neg h10]
    show joinDash ((splitDash s.data).map padSeg) = _
    rw [hs, splitDash_three A B C hA hB hC]
    have pA : padSeg A = A := by unfold padSeg; rw [hA4]; simp
    simp [joinDash, pA]

/-- The characters of `toIso` on an actual (year, month, day) triple in the
printable range: the year segment followed by the padded month and day
segments. -/
lemma toIso_data (n m d : Nat) (hn1 : 1000 ≤ n) (hn2 : n ≤ 9999)
    (hm1 : 1 ≤ m) (hm2 : m ≤ 12) (hd1 : 1 ≤ d) (hd2 : d ≤ 31) :
    (toIso (some (n : Int)) (some (m : Int)) (some (d : Int))).data
      = (Nat.repr n).data ++ '-' :: (padSeg (Nat.repr m).data ++ '-' :: padSeg (Nat.repr d).data) := by
  obtain ⟨hy4, hynd, hydig, hyval⟩ := year_repr_facts n hn1 hn2
  obtain ⟨hmnd, hm12, _, _, _, _⟩ := month_repr_facts m hm1 hm2
  obtain ⟨hdnd, hd12, _, _, _, _⟩ := day_repr_facts d hd1 hd2
  have hS : (jsStr (some (n : Int)) ++ "-" ++ jsStr (some (m : Int)) ++ "-"
        ++ jsStr (some (d : Int))).data
      = (Nat.repr n).data ++ '-' :: ((Nat.repr m).data ++ '-' :: (Nat.repr d).data) := by
    have e1 : jsStr (some (n : Int)) = Nat.repr n := rfl
    have e2 : jsStr (some (m : Int)) = Nat.repr m := rfl
    have e3 : jsStr (some (d : Int)) = Nat.repr d := rfl
    rw [e1, e2, e3]
    simp [String.data_append]
  exact addLeadingZeros_canonical _ _ _ _ hS hynd hmnd hdnd hy4 hm12 hd12

/-- Padding preserves dash-freeness. -/
lemma padSeg_noDash (x : List Char) (hx : '-' ∉ x) : '-' ∉ padSeg x := by
  unfold padSeg
  split
  · intro h
    rcases List.mem_cons.mp h with h0 | h0
    · exact absurd h0 (by decide)
    · exact hx h0
  · exact hx

/-- `toIso` never produces the empty string (its argument always contains the
two dashes of the template). -/
lemma toIso_ne_empty (a b c : JSNum) : toIso a b c ≠ "" := by
  have hdash : ("-" : String).data = ['-'] := rfl
  have h : (jsStr a ++ "-" ++ jsStr b ++ "-" ++ jsStr c).data ≠ [] := by
    simp [String.data_append, hdash]
  have h2 := addLeadingZeros_ne_empty _ h
  intro hcon
  unfold toIso at hcon
  apply h2
  rw [hcon]

/-! ## Shapes of the constructor, by input kind -/

/-- Constructing from a date object adopts it and stores its `isoString`. -/
lemma construct_date (now g : JSDate) :
    NativeDate.construct now (JSValue.date g)
      = Except.ok (NativeDate.mk g (isoOfDate g) false) := rfl

/-- Constructing from a grammar-matching string pads and parses it. -/
lemma construct_str_iso (now : JSDate) (s : String)
    (h : NativeDate.isIso (JSValue.str s) = true) :
    NativeDate.construct now (JSValue.str s)
      = Except.ok (NativeDate.mk (jsNewDate (addLeadingZeros s)) (addLeadingZeros s) false) := by
  simp [NativeDate.construct, NativeDate.isDate, typeofIsObject, h]

/-- Constructing from a non-matching string heals. -/
lemma construct_str_bad (now : JSDate) (s : String)
    (h : NativeDate.isIso (JSValue.str s) = false) :
    NativeDate.construct now (JSValue.str s) = Except.ok (NativeDate.mk now "" true) := by
  simp [NativeDate.construct, NativeDate.isDate, typeofIsObject, h]

/-! ## C5 — the padded-format invariant, amended -/

/-- C5 (amended): for every instance whose timestamp is a valid instant with a
four-digit year (1000–9999), the derived `isoString` is a zero-padded 4-2-2
ISO string. (The unamended claim fails outside that year range, see the
counterexample with year 10000.) -/
theorem claim5_amended_padded_iso (nd : NativeDate) (y : Int) (m0 d : Nat)
    (hg : nd.generatedDate = JSDate.mk y m0 d)
    (hm : m0 < 12) (hd1 : 1 ≤ d)
    (hd2 : (d : Int) ≤ gregDaysInMonth ((m0 : Int) + 1) y)
    (hy1 : 1000 ≤ y) (hy2 : y ≤ 9999) :
    isPaddedIso nd.isoString = true := by
  have hd31 : d ≤ 31 := by
    have := gregDaysInMonth_le ((m0 : Int) + 1) y
    omega
  have hiso : nd.isoString = toIso (some y) (some ((m0 : Int) + 1)) (some (d : Int)) := by
    simp [NativeDate.isoString, isoOfDate, hg, JSDate.getFullYear, JSDate.getMonth,
      JSDate.getDate, jsAdd]
  lift y to Nat using (by omega) with n
  have hcastm : ((m0 : Int) + 1) = (((m0 + 1 : Nat)) : Int) := by push_cast; ring
  rw [hcastm] at hiso
  have hdata := toIso_data n (m0 + 1) d (by omega) (by omega) (by omega) (by omega)
    (by omega) (by omega)
  obtain ⟨hy4, hynd, hydig, _⟩ := year_repr_facts n (by omega) (by omega)
  obtain ⟨hmnd, _, _, hmlen, hmdig, _⟩ := month_repr_facts (m0 + 1) (by omega) (by omega)
  obtain ⟨hdnd, _, _, hdlen, hddig, _⟩ := day_repr_facts d (by omega) (by omega)
  unfold isPaddedIso
  rw [hiso, hdata, splitDash_three _ _ _ hynd (padSeg_noDash _ hmnd) (padSeg_noDash _ hdnd)]
  simp [hy4, hmlen, hdlen, hydig, hmdig, hddig]

/-- C5 amended witness: the instance for 2024-01-31 satisfies the padded
format. -/
theorem claim5_amended_witness :
    isPaddedIso (NativeDate.mk (JSDate.mk 2024 0 31) "2024-01-31" false).isoString = true :=
  claim5_amended_padded_iso (NativeDate.mk (JSDate.mk 2024 0 31) "2024-01-31" false)
    2024 0 31 rfl (by omega) (by omega) (by decide) (by omega) (by omega)

/-! ## C4 — `isValidDateString`, amended -/

/-- A healed instance never validates its (empty) stored string. -/
lemma healed_isValidDateString_false (now : JSDate) :
    (NativeDate.mk now "" true).isValidDateString = false := by
  unfold NativeDate.isValidDateString
  exact beq_eq_false_iff_ne.mpr (toIso_ne_empty _ _ _)

/-- C4 (amended): `isValidDateString()` is the exact string comparison between
the recomputed canonical ISO string and the stored `sourceText`; it is false
for every healed instance (whose `sourceText` is empty while the recomputed
string never is), but — contrary to the unamended claim — it is true
immediately after construction from a date-like object, because the
constructor stores the computed `isoString` as the `sourceText`. -/
theorem claim4_amended_isValidDateString (nd : NativeDate) (now : JSDate) (v : JSValue)
    (g : JSDate) :
    (nd.isValidDateString = (toIso nd.year nd.month nd.day == nd.dateString))
    ∧ (∀ d : NativeDate, nativeDateHelper now v = Except.ok d → d.isHealed = true →
        d.isValidDateString = false)
    ∧ ((nativeDateHelper now (JSValue.date g)).map (fun d => d.isValidDateString)
        = Except.ok true) := by
  refine ⟨rfl, ?_, ?_⟩
  · intro d hok hheal
    cases v with
    | undef =>
      injection hok with h
      rw [← h] at hheal ⊢
      exact healed_isValidDateString_false now
    | nullv =>
      simp [nativeDateHelper, NativeDate.construct, NativeDate.isDate, typeofIsObject] at hok
    | num n =>
      injection hok with h
      rw [← h] at hheal ⊢
      exact healed_isValidDateString_false now
    | boolv b =>
      injection hok with h
      rw [← h] at hheal ⊢
      exact healed_isValidDateString_false now
    | str s =>
      by_cases hi : NativeDate.isIso (JSValue.str s) = true
      · rw [nativeDateHelper, construct_str_iso now s hi] at hok
        injection hok with h
        rw [← h] at hheal
        simp at hheal
      · rw [Bool.not_eq_true] at hi
        rw [nativeDateHelper, construct_str_bad now s hi] at hok
        injection hok with h
        rw [← h] at hheal ⊢
        exact healed_isValidDateString_false now
    | date g2 =>
      rw [nativeDateHelper, construct_date now g2] at hok
      injection hok with h
      rw [← h] at hheal
      simp at hheal
    | obj =>
      simp [nativeDateHelper, NativeDate.construct, NativeDate.isDate, typeofIsObject] at hok
    | objWeird =>
      injection hok with h
      rw [← h] at hheal ⊢
      exact healed_isValidDateString_false now
  · rw [nativeDateHelper, construct_date now g]
    simp [NativeDate.isValidDateString, NativeDate.year, NativeDate.month, NativeDate.day,
      isoOfDate, Except.map]

/-- C4 amended witness: the healed instance built from `undefined` fails
`isValidDateString`. -/
theorem claim4_amended_witness :
    (NativeDate.mk (JSDate.mk 2026 9 11) "" true).isValidDateString = false :=
  (claim4_amended_isValidDateString (NativeDate.mk JSDate.invalid "" false)
    (JSDate.mk 2026 9 11) JSValue.undef JSDate.invalid).2.1
    (NativeDate.mk (JSDate.mk 2026 9 11) "" true) rfl rfl

/-! ## Value facts extracted from the grammar segments -/

/-- A character with a digit-range code is not a dash (`'-'` has code 45). -/
lemma ne_dash_of_code (c : Char) (h : 48 ≤ c.toNat) : c ≠ '-' := by
  intro he
  subst he
  exact absurd h (by decide)

/-- What a matching year segment guarantees: four dash-free digit characters
whose value lies in 1000–2999. -/
lemma yearOk_props (A : List Char) (h : yearOk A = true) :
    '-' ∉ A ∧ A.length = 4 ∧ A.all isDigitChar = true
    ∧ 1000 ≤ natOfDigits A ∧ natOfDigits A ≤ 2999 := by
  rcases A with _ | ⟨c1, _ | ⟨c2, _ | ⟨c3, _ | ⟨c4, _ | ⟨c5, A'⟩⟩⟩⟩⟩
  · simp [yearOk] at h
  · simp [yearOk] at h
  · simp [yearOk] at h
  · simp [yearOk] at h
  · rw [show yearOk [c1, c2, c3, c4]
        = ((decide (c1 = '1') || decide (c1 = '2')) && isDigitChar c2
            && isDigitChar c3 && isDigitChar c4) from rfl] at h
    simp only [Bool.and_eq_true, Bool.or_eq_true, decide_eq_true_eq, isDigitChar] at h
    obtain ⟨⟨⟨h1, h2⟩, h3⟩, h4⟩ := h
    have hb1 : 49 ≤ c1.toNat ∧ c1.toNat ≤ 50 := by
      rcases h1 with h | h <;> subst h <;> exact ⟨by decide, by decide⟩
    refine ⟨?_, rfl, ?_, ?_, ?_⟩
    · intro hm
      rcases List.mem_cons.mp hm with h0 | hm
      · exact ne_dash_of_code c1 (by omega) h0.symm
      rcases List.mem_cons.mp hm with h0 | hm
      · exact ne_dash_of_code c2 (by omega) h0.symm
      rcases List.mem_cons.mp hm with h0 | hm
      · exact ne_dash_of_code c3 (by omega) h0.symm
      rcases List.mem_cons.mp hm with h0 | hm
      · exact ne_dash_of_code c4 (by omega) h0.symm
      · exact absurd hm (List.not_mem_nil _)
    · simp only [List.all_cons, List.all_nil, isDigitChar, Bool.and_eq_true,
        decide_eq_true_eq, and_true]
      omega
    · simp only [natOfDigits, List.foldl]
      omega
    · simp only [natOfDigits, List.foldl]
      omega
  · simp [yearOk] at h

/-- What a matching month segment guarantees: dash-free, one or two
characters, and after padding two digit characters valued 1–12. -/
lemma monthOk_props (B : List Char) (h : monthOk B = true) :
    '-' ∉ B ∧ (B.length = 1 ∨ B.length = 2) ∧ (padSeg B).length = 2
    ∧ (padSeg B).all isDigitChar = true
    ∧ 1 ≤ natOfDigits (padSeg B) ∧ natOfDigits (padSeg B) ≤ 12 := by
  have h48 : ('0' : Char).toNat = 48 := by decide
  have h49 : ('1' : Char).toNat = 49 := by decide
  rcases B with _ | ⟨b1, _ | ⟨b2, _ | ⟨b3, B'⟩⟩⟩
  · simp [monthOk] at h
  · rw [show monthOk [b1]
        = (decide (49 ≤ b1.toNat) && decide (b1.toNat ≤ 57)) from rfl] at h
    simp only [Bool.and_eq_true, decide_eq_true_eq] at h
    obtain ⟨hb1, hb2⟩ := h
    have hp : padSeg [b1] = ['0', b1] := rfl
    rw [hp]
    refine ⟨?_, Or.inl rfl, rfl, ?_, ?_, ?_⟩
    · intro hm
      rcases List.mem_cons.mp hm with h0 | hm
      · exact ne_dash_of_code b1 (by omega) h0.symm
      · exact absurd hm (List.not_mem_nil _)
    · simp only [List.all_cons, List.all_nil, isDigitChar, Bool.and_eq_true,
        decide_eq_true_eq, and_true, h48]
      omega
    · simp only [natOfDigits, List.foldl, h48]
      omega
    · simp only [natOfDigits, List.foldl, h48]
      omega
  · have hp : padSeg [b1, b2] = [b1, b2] := rfl
    have main : (48 ≤ b1.toNat ∧ b1.toNat ≤ 57) ∧ (48 ≤ b2.toNat ∧ b2.toNat ≤ 57)
        ∧ 1 ≤ natOfDigits [b1, b2] ∧ natOfDigits [b1, b2] ≤ 12 := by
      by_cases h0 : b1 = '0'
      · subst h0
        rw [show monthOk ['0', b2]
            = (decide (49 ≤ b2.toNat) && decide (b2.toNat ≤ 57)) from rfl] at h
        simp only [Bool.and_eq_true, decide_eq_true_eq] at h
        simp only [natOfDigits, List.foldl, h48]
        omega
      · by_cases h1 : b1 = '1'
        · subst h1
          rw [show monthOk ['1', b2]
              = (decide (48 ≤ b2.toNat) && decide (b2.toNat ≤ 50)) from rfl] at h
          simp only [Bool.and_eq_true, decide_eq_true_eq] at h
          simp only [natOfDigits, List.foldl, h49]
          omega
        · simp only [monthOk, if_neg h0, if_neg h1] at h
          exact Bool.noConfusion h
    rw [hp]
    refine ⟨?_, Or.inr rfl, rfl, ?_, main.2.2.1, main.2.2.2⟩
    · intro hm
      rcases List.mem_cons.mp hm with hx | hm
      · exact ne_dash_of_code b1 (by omega) hx.symm
      rcases List.mem_cons.mp hm with hx | hm
      · exact ne_dash_of_code b2 (by omega) hx.symm
      · exact absurd hm (List.not_mem_nil _)
    · simp only [List.all_cons, List.all_nil, isDigitChar, Bool.and_eq_true,
        decide_eq_true_eq, and_true]
      omega
  · simp [monthOk] at h

/-- What a matching day segment guarantees: dash-free, one or two characters,
and after padding two digit characters valued 1–31. -/
lemma dayOk_props (C : List Char) (h : dayOk C = true) :
    '-' ∉ C ∧ (C.length = 1 ∨ C.length = 2) ∧ (padSeg C).length = 2
    ∧ (padSeg C).all isDigitChar = true
    ∧ 1 ≤ natOfDigits (padSeg C) ∧ natOfDigits (padSeg C) ≤ 31 := by
  have h48 : ('0' : Char).toNat = 48 := by decide
  rcases C with _ | ⟨c1, _ | ⟨c2, _ | ⟨c3, C'⟩⟩⟩
  · simp [dayOk] at h
  · rw [show dayOk [c1]
        = (decide (49 ≤ c1.toNat) && decide (c1.toNat ≤ 57)) from rfl] at h
    simp only [Bool.and_eq_true, decide_eq_true_eq] at h
    obtain ⟨hc1, hc2⟩ := h
    have hp : padSeg [c1] = ['0', c1] := rfl
    rw [hp]
    refine ⟨?_, Or.inl rfl, rfl, ?_, ?_, ?_⟩
    · intro hm
      rcases List.mem_cons.mp hm with h0 | hm
      · exact ne_dash_of_code c1 (by omega) h0.symm
      · exact absurd hm (List.not_mem_nil _)
    · simp only [List.all_cons, List.all_nil, isDigitChar, Bool.and_eq_true,
        decide_eq_true_eq, and_true, h48]
      omega
    · simp only [natOfDigits, List.foldl, h48]
      omega
    · simp only [natOfDigits, List.foldl, h48]
      omega
  · have hp : padSeg [c1, c2] = [c1, c2] := rfl
    have main : (48 ≤ c1.toNat ∧ c1.toNat ≤ 57) ∧ (48 ≤ c2.toNat ∧ c2.toNat ≤ 57)
        ∧ 1 ≤ natOfDigits [c1, c2] ∧ natOfDigits [c1, c2] ≤ 31 := by
      by_cases h0 : c1 = '0'
      · subst h0
        rw [show dayOk ['0', c2]
            = (decide (49 ≤ c2.toNat) && decide (c2.toNat ≤ 57)) from rfl] at h
        simp only [Bool.and_eq_true, decide_eq_true_eq] at h
        simp only [natOfDigits, List.foldl, h48]
        omega
      · by_cases h12 : c1 = '1' ∨ c1 = '2'
        · have hred : dayOk [c1, c2] = isDigitChar c2 := by
            simp only [dayOk, if_neg h0, if_pos h12]
          rw [hred] at h
          simp only [isDigitChar, Bool.and_eq_true, decide_eq_true_eq] at h
          have hb1 : 49 ≤ c1.toNat ∧ c1.toNat ≤ 50 := by
            rcases h12 with hx | hx <;> subst hx <;> exact ⟨by decide, by decide⟩
          simp only [natOfDigits, List.foldl]
          omega
        · by_cases h3 : c1 = '3'
          · subst h3
            rw [show dayOk ['3', c2]
                = (decide (c2 = '0') || decide (c2 = '1')) from rfl] at h
            simp only [Bool.or_eq_true, decide_eq_true_eq] at h
            have h51 : ('3' : Char).toNat = 51 := by decide
            have hb2 : c2.toNat = 48 ∨ c2.toNat = 49 := by
              rcases h with hx | hx <;> subst hx
              · exact Or.inl (by decide)
              · exact Or.inr (by decide)
            simp only [natOfDigits, List.foldl, h51]
            omega
          · simp only [dayOk, if_neg h0, if_neg h12, if_neg h3] at h
            exact Bool.noConfusion h
    rw [hp]
    refine ⟨?_, Or.inr rfl, rfl, ?_, main.2.2.1, main.2.2.2⟩
    · intro hm
      rcases List.mem_cons.mp hm with hx | hm
      · exact ne_dash_of_code c1 (by omega) hx.symm
      rcases List.mem_cons.mp hm with hx | hm
      · exact ne_dash_of_code c2 (by omega) hx.symm
      · exact absurd hm (List.not_mem_nil _)
    · simp only [List.all_cons, List.all_nil, isDigitChar, Bool.and_eq_true,
        decide_eq_true_eq, and_true]
      omega
  · simp [dayOk] at h

/-! ## Parsing the canonical layout -/

/-- `addLeadingZeros` is the identity on ten-character strings. -/
lemma addLeadingZeros_len10 (s : String) (h : s.length = 10) : addLeadingZeros s = s := by
  unfold addLeadingZeros
  rw [if_pos h]

/-- `jsNewDate` on a canonical `dddd-dd-dd` layout: the parse succeeds exactly
when the month and day values are in range for the Gregorian calendar. -/
lemma jsNewDate_canonical (s : String) (A B C : List Char)
    (hs : s.data = A ++ '-' :: (B ++ '-' :: C))
    (hA : '-' ∉ A) (hB : '-' ∉ B) (hC : '-' ∉ C)
    (hA4 : A.length = 4) (hB2 : B.length = 2) (hC2 : C.length = 2)
    (hAd : A.all isDigitChar = true) (hBd : B.all isDigitChar = true)
    (hCd : C.all isDigitChar = true) :
    jsNewDate s
      = if 1 ≤ natOfDigits B ∧ natOfDigits B ≤ 12 ∧ 1 ≤ natOfDigits C
            ∧ ((natOfDigits C : Int)
                ≤ gregDaysInMonth ((natOfDigits B : Int)) ((natOfDigits A : Int)))
        then JSDate.mk ((natOfDigits A : Int)) (natOfDigits B - 1) (natOfDigits C)
        else JSDate.invalid := by
  by_cases hc : 1 ≤ natOfDigits B ∧ natOfDigits B ≤ 12 ∧ 1 ≤ natOfDigits C
      ∧ ((natOfDigits C : Int)
          ≤ gregDaysInMonth ((natOfDigits B : Int)) ((natOfDigits A : Int)))
  · rw [if_pos hc]
    obtain ⟨h1, h2, h3, h4⟩ := hc
    unfold jsNewDate
    rw [hs, splitDash_three A B C hA hB hC]
    simp [hA4, hB2, hC2, hAd, hBd, hCd, h1, h2, h3, h4]
  · rw [if_neg hc]
    unfold jsNewDate
    rw [hs, splitDash_three A B C hA hB hC]
    by_cases k1 : 1 ≤ natOfDigits B
    · by_cases k2 : natOfDigits B ≤ 12
      · by_cases k3 : 1 ≤ natOfDigits C
        · by_cases k4 : ((natOfDigits C : Int)
              ≤ gregDaysInMonth ((natOfDigits B : Int)) ((natOfDigits A : Int)))
          · exact absurd ⟨k1, k2, k3, k4⟩ hc
          · simp [hA4, hB2, hC2, hAd, hBd, hCd, k1, k2, k3, k4]
        · simp [hA4, hB2, hC2, hAd, hBd, hCd, k1, k2, k3]
      · simp [hA4, hB2, hC2, hAd, hBd, hCd, k1, k2]
    · simp [hA4, hB2, hC2, hAd, hBd, hCd, k1]

/-! ## C7 — the construction round trip -/

/-- C7: a CalendarDate built from a grammar-matching ISO string whose
timestamp is a valid instant round-trips — rebuilding a CalendarDate from its
`isoString` yields an `isEqual` instance. -/
theorem claim7_roundtrip (now now2 : JSDate) (s : String) (d : NativeDate)
    (h1 : nativeDateHelper now (JSValue.str s) = Except.ok d)
    (h2 : NativeDate.isIso (JSValue.str s) = true)
    (h3 : d.generatedDate ≠ JSDate.invalid) :
    (nativeDateHelper now2 (JSValue.str d.isoString)).map (fun e => e.isEqual d)
      = Except.ok true := by
  have hiso : isIsoStr s = true := by
    by_cases hse : s = ""
    · rw [hse] at h2
      simp [NativeDate.isIso] at h2
    · simpa [NativeDate.isIso, hse] using h2
  have hshape : ∃ A B C, splitDash s.data = [A, B, C]
      ∧ yearOk A = true ∧ monthOk B = true ∧ dayOk C = true := by
    unfold isIsoStr at hiso
    rcases hsp : splitDash s.data with _ | ⟨A, _ | ⟨B, _ | ⟨C, _ | ⟨D, rest⟩⟩⟩⟩ <;>
      rw [hsp] at hiso <;> simp at hiso
    exact ⟨A, B, C, rfl, hiso.1.1, hiso.1.2, hiso.2⟩
  obtain ⟨A, B, C, hsp, hyA, hmB, hdC⟩ := hshape
  obtain ⟨hAnd, hA4, hAdig, hAlo, hAhi⟩ := yearOk_props A hyA
  obtain ⟨hBnd, hB12, hBplen, hBpdig, hBlo, hBhi⟩ := monthOk_props B hmB
  obtain ⟨hCnd, hC12, hCplen, hCpdig, hClo, hChi⟩ := dayOk_props C hdC
  have hdata : s.data = A ++ '-' :: (B ++ '-' :: C) := by
    have hj := joinDash_splitDash s.data
    rw [hsp] at hj
    simpa [joinDash] using hj.symm
  have hP : (addLeadingZeros s).data = A ++ '-' :: (padSeg B ++ '-' :: padSeg C) :=
    addLeadingZeros_canonical s A B C hdata hAnd hBnd hCnd hA4 hB12 hC12
  rw [nativeDateHelper, construct_str_iso now s h2] at h1
  injection h1 with h1
  subst h1
  have hne : jsNewDate (addLeadingZeros s) ≠ JSDate.invalid := h3
  have hcanon := jsNewDate_canonical (addLeadingZeros s) A (padSeg B) (padSeg C) hP
    hAnd (padSeg_noDash _ hBnd) (padSeg_noDash _ hCnd) hA4 hBplen hCplen
    hAdig hBpdig hCpdig
  have hcond : 1 ≤ natOfDigits (padSeg B) ∧ natOfDigits (padSeg B) ≤ 12
      ∧ 1 ≤ natOfDigits (padSeg C)
      ∧ ((natOfDigits (padSeg C) : Int)
          ≤ gregDaysInMonth ((natOfDigits (padSeg B) : Int)) ((natOfDigits A : Int))) := by
    by_contra hc
    exact hne (by rw [hcanon, if_neg hc])
  obtain ⟨hc1, hc2, hc3, hc4⟩ := hcond
  have hgen : jsNewDate (addLeadingZeros s)
      = JSDate.mk ((natOfDigits A : Int)) (natOfDigits (padSeg B) - 1)
          (natOfDigits (padSeg C)) := by
    rw [hcanon, if_pos ⟨hc1, hc2, hc3, hc4⟩]
  have hmcast : ((natOfDigits (padSeg B) - 1 : Nat) : Int) + 1
      = ((natOfDigits (padSeg B) : Nat) : Int) := by omega
  have hiso_d : (NativeDate.mk (jsNewDate (addLeadingZeros s)) (addLeadingZeros s)
        false).isoString
      = toIso (some ((natOfDigits A : Int))) (some ((natOfDigits (padSeg B) : Int)))
          (some ((natOfDigits (padSeg C) : Int))) := by
    simp [NativeDate.isoString, isoOfDate, hgen, JSDate.getFullYear, JSDate.getMonth,
      JSDate.getDate, jsAdd, hmcast]
  have hdata2 := toIso_data (natOfDigits A) (natOfDigits (padSeg B))
    (natOfDigits (padSeg C)) hAlo (by omega) hc1 hc2 hc3 hChi
  obtain ⟨hA2len, hA2nd, hA2dig, hA2val⟩ := year_repr_facts (natOfDigits A) hAlo (by omega)
  have hA2yearOk := year_repr_yearOk (natOfDigits A) hAlo hAhi
  obtain ⟨hBnd2, hB122, hBok2, hBlen2, hBdig2, hBval2⟩ :=
    month_repr_facts (natOfDigits (padSeg B)) hc1 hc2
  obtain ⟨hCnd2, hC122, hCok2, hClen2, hCdig2, hCval2⟩ :=
    day_repr_facts (natOfDigits (padSeg C)) hc3 hChi
  have hne2 : toIso (some ((natOfDigits A : Int))) (some ((natOfDigits (padSeg B) : Int)))
      (some ((natOfDigits (padSeg C) : Int))) ≠ "" := toIso_ne_empty _ _ _
  have hisoStr2 : isIsoStr (toIso (some ((natOfDigits A : Int)))
      (some ((natOfDigits (padSeg B) : Int)))
      (some ((natOfDigits (padSeg C) : Int)))) = true := by
    unfold isIsoStr
    rw [hdata2, splitDash_three _ _ _ hA2nd (padSeg_noDash _ hBnd2) (padSeg_noDash _ hCnd2)]
    simp [hA2yearOk, hBok2, hCok2]
  have hlen10 : (toIso (some ((natOfDigits A : Int)))
      (some ((natOfDigits (padSeg B) : Int)))
      (some ((natOfDigits (padSeg C) : Int)))).length = 10 := by
    show (toIso _ _ _).data.length = 10
    rw [hdata2]
    simp [hA2len, hBlen2, hClen2]
  have hP2 := addLeadingZeros_len10 _ hlen10
  have hcanon2 := jsNewDate_canonical _ ((Nat.repr (natOfDigits A)).data)
    (padSeg (Nat.repr (natOfDigits (padSeg B))).data)
    (padSeg (Nat.repr (natOfDigits (padSeg C))).data) hdata2
    hA2nd (padSeg_noDash _ hBnd2) (padSeg_noDash _ hCnd2) hA2len hBlen2 hClen2
    hA2dig hBdig2 hCdig2
  rw [hA2val, hBval2, hCval2] at hcanon2
  have hparse2 : jsNewDate (toIso (some ((natOfDigits A : Int)))
      (some ((natOfDigits (padSeg B) : Int)))
      (some ((natOfDigits (padSeg C) : Int))))
      = JSDate.mk ((natOfDigits A : Int)) (natOfDigits (padSeg B) - 1)
          (natOfDigits (padSeg C)) := by
    rw [hcanon2, if_pos ⟨hc1, hc2, hc3, hc4⟩]
  rw [hiso_d, nativeDateHelper,
    construct_str_iso now2 _ (by simp [NativeDate.isIso, hne2, hisoStr2]),
    hP2, hparse2]
  simp [Except.map, NativeDate.isEqual, NativeDate.year, NativeDate.month, NativeDate.day,
    hgen, JSDate.getFullYear, JSDate.getMonth, JSDate.getDate, jsAdd, jsEq]

/-- C7 witness: the round trip applied to the concrete string `"2024-5-7"`. -/
theorem claim7_witness :
    (nativeDateHelper (JSDate.mk 2026 9 11)
        (JSValue.str ((NativeDate.mk (JSDate.mk 2024 4 7) "2024-05-07" false).isoString))).map
        (fun e => e.isEqual (NativeDate.mk (JSDate.mk 2024 4 7) "2024-05-07" false))
      = Except.ok true :=
  claim7_roundtrip (JSDate.mk 2026 9 11) (JSDate.mk 2026 9 11) "2024-5-7"
    (NativeDate.mk (JSDate.mk 2024 4 7) "2024-05-07" false) rfl (by decide) (by decide)
